import Mathlib

/-!
Verification of the TL1 command protocol engine of the GARR workflow
orchestrator (src/garr/services/infinera/flexils): the command serializer
(`TL1BaseCommand.to_string`), the response parser
(`TL1BaseResponse.from_raw_text` with `split_preserving_quotes`), the
command registry (`TL1CommandRegistry`) and the client facade
(`FlexILSClient`).

Text is modelled as `List Char`.  Python strings, `str` methods and the
one regular expression the code uses (`\s*(\w+)`, over ASCII inputs) are
embedded as executable functions on `List Char`.  Fallible Python code is
embedded as `Except PyErr`.
-/

set_option maxRecDepth 10000

/-- Conversion of a Lean string literal to the character-list model. -/
def strL (s : String) : List Char := s.data

/-- Python whitespace predicate (`str.strip()` / regex `\s`, ASCII range). -/
def pyIsSpace (c : Char) : Bool :=
  c = ' ' ∨ c = '\t' ∨ c = '\n' ∨ c = '\r' ∨ c = '\x0b' ∨ c = '\x0c'

/-- Regex `\w` word-character predicate (ASCII: letters, digits, underscore). -/
def pyIsWord (c : Char) : Bool :=
  ('a' ≤ c ∧ c ≤ 'z') ∨ ('A' ≤ c ∧ c ≤ 'Z') ∨ ('0' ≤ c ∧ c ≤ '9') ∨ c = '_'

/-- Python `str.lower` on one ASCII character. -/
def pyLower (c : Char) : Char :=
  if 'A' ≤ c ∧ c ≤ 'Z' then Char.ofNat (c.toNat + 32) else c

/-- Python `str.replace(a, b)` for single characters. -/
def replaceChar (a b : Char) (l : List Char) : List Char :=
  l.map fun c => if c = a then b else c

/-- Left arm of Python `str.strip(chars)`: drop leading characters of `cs`. -/
def stripLeftSet (cs : List Char) (l : List Char) : List Char :=
  l.dropWhile fun c => c ∈ cs

/-- Python `str.strip(chars)`: drop characters of `cs` from both ends. -/
def stripSet (cs : List Char) (l : List Char) : List Char :=
  ((stripLeftSet cs l).reverse.dropWhile fun c => c ∈ cs).reverse

/-- Python `str.strip()` (no argument): strip whitespace from both ends. -/
def pyStripWs (l : List Char) : List Char :=
  ((l.dropWhile pyIsSpace).reverse.dropWhile pyIsSpace).reverse

/-- Python `str.split(d)` for a one-character separator `d`. -/
def pySplitChar (d : Char) : List Char → List (List Char)
  | [] => [[]]
  | c :: rest =>
    match pySplitChar d rest with
    | [] => [[]]
    | h :: t => if c = d then [] :: h :: t else (c :: h) :: t

/-- Python `sep.join(parts)`. -/
def joinWith (sep : List Char) : List (List Char) → List Char
  | [] => []
  | [x] => x
  | x :: y :: rest => x ++ sep ++ joinWith sep (y :: rest)

/-- Python `str.find(pat)` (`None` for `-1`): smallest index where `pat`
starts, scanning left to right. -/
def pyFind (pat : List Char) : List Char → Option Nat
  | [] => if pat.isPrefixOf ([] : List Char) then some 0 else none
  | c :: rest =>
    if pat.isPrefixOf (c :: rest) then some 0
    else (pyFind pat rest).map (· + 1)

/-- Python `str.rfind(pat)` (`None` for `-1`): largest index where `pat`
starts. -/
def pyRfind (pat : List Char) : List Char → Option Nat
  | [] => if pat.isPrefixOf ([] : List Char) then some 0 else none
  | c :: rest =>
    match pyRfind pat rest with
    | some j => some (j + 1)
    | none => if pat.isPrefixOf (c :: rest) then some 0 else none

/-- Python `pat in text` substring test. -/
def containsSub (pat text : List Char) : Bool :=
  (pyFind pat text).isSome

/-- Worker for `pySplitlines`; lines are separated by `\n`, `\r\n` or `\r`,
and a terminator at the very end does not open an empty final line. -/
def pySplitlinesGo (cur : List Char) : List Char → List (List Char)
  | [] => [cur.reverse]
  | c :: rest =>
    if c = '\r' then
      match rest with
      | [] => [cur.reverse]
      | '\n' :: rest2 =>
        match rest2 with
        | [] => [cur.reverse]
        | e :: rest3 => cur.reverse :: pySplitlinesGo [] (e :: rest3)
      | d :: rest2 => cur.reverse :: pySplitlinesGo [] (d :: rest2)
    else if c = '\n' then
      match rest with
      | [] => [cur.reverse]
      | d :: rest2 => cur.reverse :: pySplitlinesGo [] (d :: rest2)
    else pySplitlinesGo (c :: cur) rest

/-- Python `str.splitlines()`. -/
def pySplitlines : List Char → List (List Char)
  | [] => []
  | l => pySplitlinesGo [] l

/-- Decimal digits of a natural number, for synthetic field names. -/
def natChars (n : Nat) : List Char := Nat.toDigits 10 n

/-- Embedding of the regex match `re.match(r"\s*(\w+)", s)` used by
`TL1BaseResponse.from_raw_text` to extract the completion status: skip
leading whitespace, then require at least one word character and capture
the maximal word-character run.  Returns `none` when the regex does not
match (in Python `match.group(1)` then raises `AttributeError`). -/
def pyStatusMatch (s : List Char) : Option (List Char) :=
  let t := s.dropWhile pyIsSpace
  match t with
  | [] => none
  | c :: _ => if pyIsWord c then some (t.takeWhile pyIsWord) else none

/-- Python exceptions that the TL1 engine can raise.  `valueError` is the
untagged-response `ValueError` of `from_raw_text` (the spec's
`ProtocolError`); `attributeError` is both the `match.group` crash on a
missing status and the registry-miss `AttributeError` of
`FlexILSClient.__getattr__` (the spec's `UnknownCommandError`);
`typeError` is the duplicate-keyword `TypeError` of
`cls(tid=..., **kwargs)`; `commandDenied` is `TL1CommandDeniedError`
carrying device uuid, serialized command and raw response. -/
inductive PyErr where
  | valueError : PyErr
  | attributeError : PyErr
  | typeError : PyErr
  | commandDenied : List Char → List Char → List Char → PyErr
  deriving DecidableEq, Repr

/-- Python values that can sit in a command field or a parsed record:
a string, a flat list of strings, or a list of lists of strings. -/
inductive PyValue where
  | str : List Char → PyValue
  | list : List (List Char) → PyValue
  | lol : List (List (List Char)) → PyValue
  deriving DecidableEq, Repr

/-- Record of one parsed response line: an insertion-ordered dictionary
from field name to value, with Python `dict` assignment semantics. -/
abbrev TL1Record := List (List Char × PyValue)

/-- Python `d[k] = v`: overwrite in place when the key exists, else
append. -/
def pyDictSet {α : Type} (k : List Char) (v : α) :
    List (List Char × α) → List (List Char × α)
  | [] => [(k, v)]
  | (k', v') :: rest =>
    if k' = k then (k, v) :: rest else (k', v') :: pyDictSet k v rest

/-- Python `d.get(k)` / `d[k]` lookup on an insertion-ordered dictionary. -/
def pyDictGet {α : Type} (k : List Char) : List (List Char × α) → Option α
  | [] => none
  | (k', v') :: rest => if k' = k then some v' else pyDictGet k rest

/-- Python `k in d`. -/
def pyDictHasKey {α : Type} (k : List Char) (d : List (List Char × α)) : Bool :=
  (pyDictGet k d).isSome

/-- Worker for `splitPreservingQuotes`, one step of the quote-aware
scanner of `split_preserving_quotes` in commands/base.py.  At each
position (with at least three characters remaining, Python's
`i + 2 < len(text)`), the three-character window enters quoted mode on
the raw sequences `=\"` and `:\"` and leaves it on `\",` and `\":`
(each containing a literal backslash); a delimiter character splits only
outside quoted mode. -/
def spqGo (delim : Char) (inQ : Bool) (cur : List Char) : List Char → List (List Char)
  | [] => [cur.reverse]
  | a :: rest =>
    let inQ2 :=
      match rest with
      | b :: c :: _ =>
        if (a = '=' ∧ b = '\\' ∧ c = '"') ∨ (a = ':' ∧ b = '\\' ∧ c = '"') then true
        else if a = '\\' ∧ b = '"' ∧ (c = ',' ∨ c = ':') then false
        else inQ
      | _ => inQ
    if a = delim ∧ inQ2 = false then cur.reverse :: spqGo delim false [] rest
    else spqGo delim inQ2 (a :: cur) rest

/-- The quote-aware tokenizer `split_preserving_quotes(text, delimiter)`
of `TL1BaseResponse.from_raw_text`. -/
def splitPreservingQuotes (text : List Char) (delim : Char) : List (List Char) :=
  spqGo delim false [] text

/-- Containment of the two-character sequence `&-` (Python
`"&-" in value`). -/
def containsAmpDash : List Char → Bool
  | [] => false
  | [_] => false
  | c :: d :: rest => if c = '&' ∧ d = '-' then true else containsAmpDash (d :: rest)

/-- Worker for `splitAmpDash`; like Python `str.split`, scanning resumes
after each separator occurrence (non-overlapping, leftmost first). -/
def splitAmpDashGo (cur : List Char) : List Char → List (List Char)
  | [] => [cur.reverse]
  | [c] => [(c :: cur).reverse]
  | c :: d :: rest =>
    if c = '&' ∧ d = '-' then cur.reverse :: splitAmpDashGo [] rest
    else splitAmpDashGo (c :: cur) (d :: rest)

/-- Python `value.split("&-")`. -/
def splitAmpDash (l : List Char) : List (List Char) :=
  splitAmpDashGo [] l

/-- Decoding of one named field value in `from_raw_text`: strip
whitespace, remove one pair of surrounding plain quotes, then decode
`&-`-joined list-of-lists, `&`-joined flat list, or scalar. -/
def decodeFieldValue (raw : List Char) : PyValue :=
  let v0 := pyStripWs raw
  let v :=
    if v0.head? = some '"' ∧ v0.getLast? = some '"' then v0.drop 1 |>.dropLast
    else v0
  if containsAmpDash v then .lol ((splitAmpDash v).map fun w => pySplitChar '&' w)
  else if v.contains '&' then .list (pySplitChar '&' v)
  else .str v

/-- Synthetic name `positional_param_{i}_{j}` for a field without `=`. -/
def positionalName (i j : Nat) : List Char :=
  strL "positional_param_" ++ natChars i ++ '_' :: natChars j

/-- Processing of the fields of one `:`-section (index `i`) of a response
line: fields are the `,`-tokens (quote-aware); a field containing `=`
is split at the first `=` into name and value, otherwise it becomes a
positional parameter named after its coordinates. -/
def recordFields (i : Nat) (j : Nat) (rec : TL1Record) : List (List Char) → TL1Record
  | [] => rec
  | p :: rest =>
    if p.contains '=' then
      let key := pyStripWs (p.takeWhile (· ≠ '='))
      let val := decodeFieldValue ((p.dropWhile (· ≠ '=')).drop 1)
      recordFields i (j + 1) (pyDictSet key val rec) rest
    else
      recordFields i (j + 1) (pyDictSet (positionalName i j) (.str (pyStripWs p)) rec) rest

/-- Processing of the `:`-sections of one response line (section index
`i` advances even over skipped all-whitespace sections, Python's
`enumerate` with `continue`). -/
def recordSections (i : Nat) (rec : TL1Record) : List (List Char) → TL1Record
  | [] => rec
  | s :: rest =>
    if s.all pyIsSpace then recordSections (i + 1) rec rest
    else recordSections (i + 1) (recordFields i 0 rec (splitPreservingQuotes s ',')) rest

/-- Parsing of one line of the response body: strip `" ;"`, skip lines
not beginning with a quote, strip the outer quotes, and tokenize
quote-aware first on `:` then on `,`. -/
def parseLine (line : List Char) : Option TL1Record :=
  let l := stripSet [' ', ';'] line
  match l with
  | [] => none
  | c :: _ =>
    if c ≠ '"' then none
    else some (recordSections 0 [] (splitPreservingQuotes (stripSet ['"'] l) ':'))

/-- Structured TL1 response (`TL1BaseResponse`).  The completion status is
kept as its raw string: `TL1CompletionStatus` lives in the repository's
`utils/fixed_params.py`, which is not under src/ — modelled from the
spec: "any other vendor status string passes through unmodified". -/
structure TL1Response where
  status : List Char
  rawData : List Char
  parsedData : List TL1Record
  ctag : List Char
  sid : Option (List Char) := none
  tid : Option (List Char) := none
  deriving DecidableEq, Repr

/-- Embedding of `TL1BaseResponse.from_raw_text(message, tag)`.  `rename`
is the per-command `rename_positional_params` hook (identity on the base
class).  Fails with `valueError` when the tag is absent (`ValueError`)
and with `attributeError` when no status word follows the last tag
occurrence (`match.group(1)` on a failed regex match). -/
def fromRawText (rename : List TL1Record → List TL1Record)
    (message tag : List Char) : Except PyErr TL1Response :=
  match pyRfind tag message with
  | none => .error .valueError
  | some index =>
    match pyStatusMatch (message.drop (index + tag.length)) with
    | none => .error .attributeError
    | some status =>
      let index2 := (pyFind tag message).getD 0
      let body := message.drop index2
      let lines := pySplitlines (pyStripWs body)
      let records := lines.tail.filterMap parseLine
      .ok { status := status, rawData := body, parsedData := rename records,
            ctag := tag }

/-- A TL1 command object ready for serialization: the class constants
`verb`, `modifier`, `help_text` together with the instance attributes.
Attribute lookup `getattr(self, name, None)` is `pyDictGet` on `attrs`;
fields whose value is Python `None` are simply absent from `attrs`. -/
structure TL1Command where
  verb : List Char
  modifier : List Char
  helpText : List Char
  attrs : TL1Record
  deriving DecidableEq, Repr

/-- Serialization of one named or list value (`&`-join for flat lists,
`&`-inner- and `&-`-outer-join for lists of lists, the string itself for
scalars). -/
def renderValue : PyValue → List Char
  | .str s => s
  | .list xs => joinWith ['&'] xs
  | .lol xss => joinWith ['&', '-'] (xss.map (joinWith ['&']))

/-- Python `repr` of a string with single quotes, for `str(value)` on a
non-string positional value (unreachable for the registered commands). -/
def pyReprStr (s : List Char) : List Char :=
  Char.ofNat 39 :: s ++ [Char.ofNat 39]

/-- Python `str(value)` as used on positional parameters. -/
def pyStrOf : PyValue → List Char
  | .str s => s
  | .list xs => '[' :: joinWith (strL ", ") (xs.map pyReprStr) ++ [']']
  | .lol xss =>
    '[' :: joinWith (strL ", ")
      (xss.map fun xs => '[' :: joinWith (strL ", ") (xs.map pyReprStr) ++ [']']) ++ [']']

/-- Python `section.replace(",]", "],")` (all occurrences, left to right,
scanning resumes after each replacement). -/
def replaceCommaCloseBracket : List Char → List Char
  | ',' :: ']' :: rest => ']' :: ',' :: replaceCommaCloseBracket rest
  | c :: rest => c :: replaceCommaCloseBracket rest
  | [] => []

/-- Python `section.replace("[,", ",[")`. -/
def replaceOpenBracketComma : List Char → List Char
  | '[' :: ',' :: rest => ',' :: '[' :: replaceOpenBracketComma rest
  | c :: rest => c :: replaceOpenBracketComma rest
  | [] => []

/-- Emission of one template token of `TL1BaseCommand.to_string`:
`none` when the token emits nothing, `some param` otherwise (`some []`
is the empty placeholder of a required positional field). -/
def renderPart (cmd : TL1Command) (part : List Char) : Option (List Char) :=
  let isOpt := part.head? = some '[' ∧ part.getLast? = some ']'
  let core := stripSet ['[', ']', '<', '>'] part
  if core = [] then none
  else if core.contains '=' then
    let name := core.takeWhile (· ≠ '=')
    let key := replaceChar '-' '_' (name.map pyLower)
    match pyDictGet key cmd.attrs with
    | some v => some (name ++ '=' :: renderValue v)
    | none => none
  else
    let nm := replaceChar '|' '_' (replaceChar '-' '_' (core.map pyLower))
    match pyDictGet nm cmd.attrs with
    | some v => some (pyStrOf v)
    | none => if isOpt then none else some []

/-- Serialization of one `:`-section of the template: normalize bracket
and comma placement, split on `,`, emit each token, and collapse the
section to empty when every emitted token is empty. -/
def renderSection (cmd : TL1Command) (sec : List Char) : List Char :=
  if sec.all pyIsSpace then []
  else
    let sec1 := replaceOpenBracketComma (replaceCommaCloseBracket sec)
    let params := (pySplitChar ',' sec1).filterMap (renderPart cmd)
    if params.all (· = []) then [] else joinWith [','] params

/-- Embedding of `TL1BaseCommand.to_string`: split the template on `:`,
emit `verb-modifier` for section 0 and the rendered parameters for the
remaining sections, join with `:` and append `;`. -/
def toStringModel (cmd : TL1Command) : List Char :=
  let sections := pySplitChar ':' cmd.helpText
  joinWith [':'] ((cmd.verb ++ '-' :: cmd.modifier) :: sections.tail.map (renderSection cmd))
    ++ [';']

/-- Modelled from the spec: the repository's `utils/fixed_params.py`
(imported by commands/base.py for `TL1CompletionStatus` and
`DEFAULT_CTAG`) is not under src/.  Per the spec's error/status model the
completion codes are plain strings (`COMPLD`, `DENY`, and the `ALREADY`
marker used as a substring test on raw response text). -/
def DENY : List Char := strL "DENY"

/-- Modelled from the spec: the `ALREADY` marker of the DENY heuristic
(see `DENY`). -/
def ALREADY : List Char := strL "ALREADY"

/-- Modelled from the spec: the `COMPLD` success status (see `DENY`). -/
def COMPLD : List Char := strL "COMPLD"

/-- Modelled from the spec: the default correlation tag `DEFAULT_CTAG` of
`utils/fixed_params.py`, which is not under src/; its concrete value is
unspecified in the spec and no claim depends on it. -/
def DEFAULT_CTAG : List Char := strL "100"

/-- The derived method name of `TL1CommandRegistry.register`:
`lower(verb) + "_" + lower(modifier with '-' replaced by '_')`. -/
def derivedMethodName (verb modifier : List Char) : List Char :=
  (verb.map pyLower) ++ '_' :: replaceChar '-' '_' (modifier.map pyLower)

/-- Identity of a TL1 command class as seen by the registry: its Python
class name and the `verb` / `modifier` class constants (the only fields
`TL1CommandRegistry.register` reads). -/
structure TL1CommandClassId where
  className : List Char
  verb : List Char
  modifier : List Char
  deriving DecidableEq, Repr

/-- Embedding of `TL1CommandRegistry.register`: a plain dictionary
assignment `cls.commands[method_name] = command_class`. -/
def registryRegister (c : TL1CommandClassId) (reg : List (List Char × TL1CommandClassId)) :
    List (List Char × TL1CommandClassId) :=
  pyDictSet (derivedMethodName c.verb c.modifier) c reg

/-- The identity of `MaintenanceSch` from commands/sch.py: verb `RMV`,
modifier `SCH`. -/
def maintenanceSchId : TL1CommandClassId :=
  { className := strL "MaintenanceSch", verb := strL "RMV", modifier := strL "SCH" }

/-- The identity of `RestoreAdminStateSch` from commands/sch.py: verb
`RMV`, modifier `SCH` — the same constants as `MaintenanceSch`. -/
def restoreAdminStateSchId : TL1CommandClassId :=
  { className := strL "RestoreAdminStateSch", verb := strL "RMV", modifier := strL "SCH" }

/-- Command class data used by the client facade: the class constants
plus the non-`None` field defaults (for example `ctag ↦ DEFAULT_CTAG`);
fields defaulting to `None` are simply absent. -/
structure TL1CommandClass where
  className : List Char
  verb : List Char
  modifier : List Char
  helpText : List Char
  defaults : TL1Record
  deriving DecidableEq, Repr

/-- The client facade state: device identity and the TNMS transport
(`_execute_raw_command`, returning raw response text). -/
structure FlexILSClientModel where
  deviceUuid : List Char
  deviceTid : List Char
  transport : List Char → List Char

/-- The `ctag` attribute of a command object (a Pydantic field with
default `DEFAULT_CTAG`). -/
def cmdCtag (cmd : TL1Command) : List Char :=
  match pyDictGet (strL "ctag") cmd.attrs with
  | some (.str s) => s
  | _ => DEFAULT_CTAG

/-- Embedding of `TL1BaseCommand.execute`: serialize, send through the
transport, raise `TL1CommandDeniedError` when the response contains
`DENY` but not `ALREADY`, otherwise parse the response with
`response_class.from_raw_text` (`rename` is that class's rename hook). -/
def executeCommand (rename : List TL1Record → List TL1Record)
    (deviceUuid : List Char) (transport : List Char → List Char)
    (cmd : TL1Command) : Except PyErr TL1Response :=
  let commandStr := toStringModel cmd
  let responseStr := transport commandStr
  if containsSub DENY responseStr && !containsSub ALREADY responseStr then
    .error (.commandDenied deviceUuid commandStr responseStr)
  else fromRawText rename responseStr (cmdCtag cmd)

/-- Construction `command_cls(tid=self.device_tid, **kwargs)` after the
duplicate-keyword check has passed: field defaults overridden by the
explicit `tid` and the keyword arguments. -/
def mkCommand (cls : TL1CommandClass) (tid : List Char) (kwargs : TL1Record) : TL1Command :=
  { verb := cls.verb, modifier := cls.modifier, helpText := cls.helpText,
    attrs := ((strL "tid", PyValue.str tid) :: kwargs).foldl
      (fun m p => pyDictSet p.1 p.2 m) cls.defaults }

/-- Embedding of `FlexILSClient._execute_command`: Python raises
`TypeError` (got multiple values for keyword argument `tid`) when the
caller also passes `tid`, since the call is `command_cls(tid=..., **kwargs)`;
otherwise the command is built and executed. -/
def executeCommandMethod (rename : List TL1Record → List TL1Record)
    (client : FlexILSClientModel) (cls : TL1CommandClass) (kwargs : TL1Record) :
    Except PyErr TL1Response :=
  if pyDictHasKey (strL "tid") kwargs then .error .typeError
  else executeCommand rename client.deviceUuid client.transport
    (mkCommand cls client.deviceTid kwargs)

/-- The serialized request text produced by one invocation (the string
handed to the transport), behind the same duplicate-`tid` check. -/
def requestString (tid : List Char) (cls : TL1CommandClass) (kwargs : TL1Record) :
    Except PyErr (List Char) :=
  if pyDictHasKey (strL "tid") kwargs then .error .typeError
  else .ok (toStringModel (mkCommand cls tid kwargs))

/-- Embedding of `FlexILSClient._init_command_methods`: one bound method
per registry entry, created eagerly at construction time. -/
def eagerMethodTable (rename : List TL1Record → List TL1Record)
    (client : FlexILSClientModel) (reg : List (List Char × TL1CommandClass)) :
    List (List Char × (TL1Record → Except PyErr TL1Response)) :=
  reg.map fun e => (e.1, executeCommandMethod rename client e.2)

/-- Invocation through the eagerly bound table: attribute lookup among
the methods bound in `__init__`, then a call (`none` when no method of
that name was bound). -/
def invokeEager (rename : List TL1Record → List TL1Record)
    (client : FlexILSClientModel) (reg : List (List Char × TL1CommandClass))
    (name : List Char) (kwargs : TL1Record) : Option (Except PyErr TL1Response) :=
  (pyDictGet name (eagerMethodTable rename client reg)).map fun f => f kwargs

/-- Embedding of `FlexILSClient.__getattr__`: on attribute miss, look the
name up in `TL1CommandRegistry.commands`; a hit returns a thin wrapper
around `_execute_command`, a miss raises `AttributeError` (the spec's
`UnknownCommandError`). -/
def resolveAttr (rename : List TL1Record → List TL1Record)
    (client : FlexILSClientModel) (reg : List (List Char × TL1CommandClass))
    (name : List Char) : Except PyErr (TL1Record → Except PyErr TL1Response) :=
  match pyDictGet name reg with
  | some cls => .ok (executeCommandMethod rename client cls)
  | none => .error .attributeError

/-- Invocation through the lazy attribute-miss fallback. -/
def invokeLazy (rename : List TL1Record → List TL1Record)
    (client : FlexILSClientModel) (reg : List (List Char × TL1CommandClass))
    (name : List Char) (kwargs : TL1Record) : Option (Except PyErr TL1Response) :=
  match resolveAttr rename client reg name with
  | .ok f => some (f kwargs)
  | .error _ => none

/-- The serialized request along the eager path: the request builder of
each bound method, tabulated at construction time. -/
def eagerRequestTable (tid : List Char) (reg : List (List Char × TL1CommandClass)) :
    List (List Char × (TL1Record → Except PyErr (List Char))) :=
  reg.map fun e => (e.1, requestString tid e.2)

/-- Serialized request of an invocation resolved through the eager table. -/
def eagerRequest (tid : List Char) (reg : List (List Char × TL1CommandClass))
    (name : List Char) (kwargs : TL1Record) : Option (Except PyErr (List Char)) :=
  (pyDictGet name (eagerRequestTable tid reg)).map fun f => f kwargs

/-- Serialized request of an invocation resolved through the lazy
fallback. -/
def lazyRequest (tid : List Char) (reg : List (List Char × TL1CommandClass))
    (name : List Char) (kwargs : TL1Record) : Option (Except PyErr (List Char)) :=
  (pyDictGet name reg).map fun cls => requestString tid cls kwargs

/-- A `RetrieveOts` command object (commands/ots.py): template
`RTRV-OTS:[<TID>]:[<AID>]:<CTAG>::::`, with `tid` unset and the given
`aid` and `ctag`. -/
def retrieveOtsCommand (aid ctag : List Char) : TL1Command :=
  { verb := strL "RTRV", modifier := strL "OTS",
    helpText := strL "RTRV-OTS:[<TID>]:[<AID>]:<CTAG>::::",
    attrs := [(strL "aid", .str aid), (strL "ctag", .str ctag)] }

/-- A `RetrieveOsnc` command object (commands/osnc.py): template
`RTRV-OSNC:[<TID>]:[<AID>]:<CTAG>:::[<OELAID=oelaid>]:`, with `tid` and
`aid` unset, `ctag = "100"` and the given `oelaid` value. -/
def retrieveOsncCommand (oelaid : PyValue) : TL1Command :=
  { verb := strL "RTRV", modifier := strL "OSNC",
    helpText := strL "RTRV-OSNC:[<TID>]:[<AID>]:<CTAG>:::[<OELAID=oelaid>]:",
    attrs := [(strL "ctag", .str (strL "100")), (strL "oelaid", oelaid)] }

/-- A status envelope around a response body: a header line holding the
correlation tag and the `COMPLD` status, then the body on a quoted line. -/
def wrapStatusEnvelope (tag body : List Char) : List Char :=
  tag ++ strL " COMPLD\n\"" ++ body ++ ['"']

/-- A minimal command object used to probe `execute` (template with an
empty parameter section; only the class constants matter for the DENY
classification). -/
def denyProbeCommand : TL1Command :=
  { verb := strL "RTRV", modifier := strL "OTS",
    helpText := strL "RTRV-OTS:[<TID>]:[<AID>]:<CTAG>::::", attrs := [] }

/-- The TL1 response message of the tokenizer claim: a tagged `COMPLD`
header followed by the data line `"AID=\"a,b:c\",LABEL=\"x:y\""`
(escaped quotes around both values, as `split_preserving_quotes`
expects). -/
def c1Message : List Char :=
  strL "123 COMPLD\n\"AID=\\\"a,b:c\\\",LABEL=\\\"x:y\\\"\""

/-- The record the parser actually produces for `c1Message`: two named
fields whose values retain the escape sequences (the surrounding-quote
strip does not fire because the values start with a backslash, and the
trailing escaped quote of the last value loses its quote character to
the outer `strip('"')`). -/
def c1Record : TL1Record :=
  [(strL "AID", .str (strL "\\\"a,b:c\\\"")),
   (strL "LABEL", .str (strL "\\\"x:y\\"))]

/-- ASCII alphanumeric characters: the clean value alphabet of the
round-trip property (excludes every TL1 delimiter the codec uses:
`:`, `,`, `=`, `&`, `-`, `;`, quotes, backslash, whitespace, `@`). -/
def alnumChar (c : Char) : Bool :=
  ('a' ≤ c ∧ c ≤ 'z') ∨ ('A' ≤ c ∧ c ≤ 'Z') ∨ ('0' ≤ c ∧ c ≤ '9')

/-- Clean field values for the round-trip property: nonempty
alphanumeric scalars; flat lists of at least two alphanumeric elements
(a singleton list serializes like its element and is parsed back as a
scalar); lists of lists with at least two rows of nonempty, alphanumeric
rows (a single row serializes like a flat list). -/
def cleanValue : PyValue → Bool
  | .str s => !s.isEmpty && s.all alnumChar
  | .list xs => decide (2 ≤ xs.length) && xs.all fun x => x.all alnumChar
  | .lol xss =>
    decide (2 ≤ xss.length) && xss.all fun row => !row.isEmpty && row.all fun x => x.all alnumChar

/-- The record recovered by parsing the wrapped serialization of a
`RetrieveOsnc` command with `oelaid` value `v`: the verb-modifier head
and the correlation tag come back as positional parameters (renamable by
the per-command hook), the named field `OELAID` comes back as `v`, and
the trailing `;` of the serialization lands in a final positional
parameter. -/
def c6Record (v : PyValue) : TL1Record :=
  [(positionalName 0 0, .str (strL "RTRV-OSNC")),
   (positionalName 3 0, .str (strL "100")),
   (strL "OELAID", v),
   (positionalName 7 0, .str (strL ";"))]

/-! Helper lemmas about the embedded Python primitives. -/

theorem pyFind_eq_none_iff (pat text : List Char) :
    pyFind pat text = none ↔ ∀ i : Nat, ¬ pat.isPrefixOf (text.drop i) = true := by
  induction text with
  | nil =>
    by_cases h : pat.isPrefixOf ([] : List Char) = true
    · simp [pyFind, h]
    · simp [pyFind, h]
  | cons c rest ih =>
    by_cases h : pat.isPrefixOf (c :: rest) = true
    · constructor
      · intro hc; simp [pyFind, h] at hc
      · intro hall; exact absurd h (by simpa using hall 0)
    · have hstep : pyFind pat (c :: rest) = (pyFind pat rest).map (· + 1) := by
        simp [pyFind, h]
      rw [hstep]
      constructor
      · intro hc i
        have hnone : pyFind pat rest = none := by
          cases hf : pyFind pat rest with
          | none => rfl
          | some j => rw [hf] at hc; simp at hc
        match i with
        | 0 => simpa using h
        | j + 1 => simpa using (ih.mp hnone) j
      · intro hall
        have hn : pyFind pat rest = none := ih.mpr fun i => by simpa using hall (i + 1)
        rw [hn]; rfl

theorem pyRfind_eq_none_iff (pat text : List Char) :
    pyRfind pat text = none ↔ ∀ i : Nat, ¬ pat.isPrefixOf (text.drop i) = true := by
  induction text with
  | nil =>
    by_cases h : pat.isPrefixOf ([] : List Char) = true
    · simp [pyRfind, h]
    · simp [pyRfind, h]
  | cons c rest ih =>
    constructor
    · intro hc i
      cases hr : pyRfind pat rest with
      | some j => simp [pyRfind, hr] at hc
      | none =>
        simp only [pyRfind, hr] at hc
        by_cases h : pat.isPrefixOf (c :: rest) = true
        · simp [h] at hc
        · match i with
          | 0 => simpa using h
          | j + 1 => simpa using (ih.mp hr) j
    · intro hall
      have hr : pyRfind pat rest = none := ih.mpr (fun i => by simpa using hall (i + 1))
      have h0 : ¬ pat.isPrefixOf (c :: rest) = true := by simpa using hall 0
      simp [pyRfind, hr, h0]

theorem pyDictGet_map {α β : Type} (f : α → β) (k : List Char)
    (d : List (List Char × α)) :
    pyDictGet k (d.map fun e => (e.1, f e.2)) = (pyDictGet k d).map f := by
  induction d with
  | nil => simp [pyDictGet]
  | cons e rest ih =>
    by_cases h : e.1 = k
    · simp [pyDictGet, h]
    · simp [pyDictGet, h, ih]

theorem pyDictGet_set_self {α : Type} (k : List Char) (v : α)
    (d : List (List Char × α)) :
    pyDictGet k (pyDictSet k v d) = some v := by
  induction d with
  | nil => simp [pyDictSet, pyDictGet]
  | cons e rest ih =>
    by_cases h : e.1 = k
    · simp [pyDictSet, pyDictGet, h]
    · simp [pyDictSet, pyDictGet, h, ih]

theorem pyDictGet_set_ne {α : Type} (k k' : List Char) (v : α)
    (d : List (List Char × α)) (h : k' ≠ k) :
    pyDictGet k (pyDictSet k' v d) = pyDictGet k d := by
  induction d with
  | nil => simp [pyDictSet, pyDictGet, h]
  | cons e rest ih =>
    by_cases he : e.1 = k'
    · simp [pyDictSet, pyDictGet, he, h]
    · by_cases hek : e.1 = k
      · have hk : ¬ k = k' := fun hh => h hh.symm
        simp [pyDictSet, pyDictGet, he, hek, hk]
      · simp [pyDictSet, pyDictGet, he, hek, ih]

theorem pyDictGet_eq_none_iff {α : Type} (k : List Char) (d : List (List Char × α)) :
    pyDictGet k d = none ↔ ∀ p ∈ d, p.1 ≠ k := by
  induction d with
  | nil =>
    constructor
    · intro _ p hp; cases hp
    · intro _; rfl
  | cons e rest ih =>
    obtain ⟨ek, ev⟩ := e
    by_cases h : ek = k
    · constructor
      · intro hc
        rw [pyDictGet, if_pos h] at hc
        cases hc
      · intro hall
        exact absurd h (hall (ek, ev) (List.mem_cons_self _ rest))
    · constructor
      · intro hc p hp
        rw [pyDictGet, if_neg h] at hc
        rcases List.mem_cons.mp hp with hpe | hmem
        · rw [hpe]; exact h
        · exact (ih.mp hc) p hmem
      · intro hall
        rw [pyDictGet, if_neg h]
        exact ih.mpr fun p hp => hall p (List.mem_cons_of_mem _ hp)

theorem pyDictGet_foldl_set_of_ne {α : Type} (k : List Char)
    (ps : List (List Char × α)) (h : ∀ p ∈ ps, p.1 ≠ k) :
    ∀ d : List (List Char × α),
      pyDictGet k (ps.foldl (fun m p => pyDictSet p.1 p.2 m) d) = pyDictGet k d := by
  induction ps with
  | nil => intro d; rfl
  | cons p rest ih =>
    intro d
    have hp : p.1 ≠ k := h p (List.mem_cons_self p rest)
    have hr : ∀ q ∈ rest, q.1 ≠ k := fun q hq => h q (List.mem_cons_of_mem p hq)
    rw [List.foldl_cons, ih hr, pyDictGet_set_ne _ _ _ _ hp]

/-- Claim C3: for every raw response text and correlation tag such that
the tag does not occur in the text, `TL1BaseResponse.from_raw_text`
fails with the untagged-response error (Python `ValueError`, the spec's
`ProtocolError`) and no partial `ResponseEnvelope` is returned. -/
theorem c3_untagged_response_fails (rename : List TL1Record → List TL1Record)
    (message tag : List Char) (h : containsSub tag message = false) :
    fromRawText rename message tag = .error .valueError := by
  have hfind : pyFind tag message = none := by
    cases hf : pyFind tag message with
    | none => rfl
    | some j => rw [containsSub, hf] at h; cases h
  have hr : pyRfind tag message = none :=
    (pyRfind_eq_none_iff tag message).mpr ((pyFind_eq_none_iff tag message).mp hfind)
  simp [fromRawText, hr]

/-- Witness for C3 at a concrete untagged response. -/
theorem c3_untagged_response_fails_witness :
    containsSub (strL "XYZ") (strL "HELLO WORLD") = false ∧
    fromRawText id (strL "HELLO WORLD") (strL "XYZ") = .error .valueError :=
  ⟨by decide, c3_untagged_response_fails id (strL "HELLO WORLD") (strL "XYZ") (by decide)⟩

/-- Claim C8: resolving an attribute name that is not a registered
command method name through `FlexILSClient.__getattr__` raises the
registry-miss `AttributeError` (the spec's `UnknownCommandError`). -/
theorem c8_registry_miss_raises (rename : List TL1Record → List TL1Record)
    (client : FlexILSClientModel) (reg : List (List Char × TL1CommandClass))
    (name : List Char) (h : pyDictGet name reg = none) :
    resolveAttr rename client reg name = .error .attributeError := by
  simp [resolveAttr, h]

/-- Witness for C8 at a concrete unregistered name. -/
theorem c8_registry_miss_raises_witness :
    pyDictGet (strL "rtrv_nothing") ([] : List (List Char × TL1CommandClass)) = none ∧
    resolveAttr id ⟨strL "uuid1", strL "TID1", fun _ => []⟩ [] (strL "rtrv_nothing") =
      .error .attributeError :=
  ⟨rfl, c8_registry_miss_raises id ⟨strL "uuid1", strL "TID1", fun _ => []⟩ []
    (strL "rtrv_nothing") rfl⟩

/-- Claim C9: a command invoked through the client facade always carries
the client's `device_tid` as its `tid` field, and passing `tid` as a
keyword argument raises `TypeError` (duplicate keyword in
`command_cls(tid=self.device_tid, **kwargs)`) rather than overriding the
device identity. -/
theorem c9_tid_bound_to_client (rename : List TL1Record → List TL1Record)
    (client : FlexILSClientModel) (cls : TL1CommandClass) (kwargs : TL1Record) :
    (pyDictHasKey (strL "tid") kwargs = true →
      executeCommandMethod rename client cls kwargs = .error .typeError) ∧
    (pyDictHasKey (strL "tid") kwargs = false →
      pyDictGet (strL "tid") (mkCommand cls client.deviceTid kwargs).attrs =
        some (.str client.deviceTid)) := by
  constructor
  · intro h
    simp [executeCommandMethod, h]
  · intro h
    have hnone : pyDictGet (strL "tid") kwargs = none := by
      cases hf : pyDictGet (strL "tid") kwargs with
      | none => rfl
      | some v => rw [pyDictHasKey, hf] at h; cases h
    have hk : ∀ p ∈ kwargs, p.1 ≠ strL "tid" :=
      (pyDictGet_eq_none_iff (strL "tid") kwargs).mp hnone
    show pyDictGet (strL "tid")
        (((strL "tid", PyValue.str client.deviceTid) :: kwargs).foldl
          (fun m p => pyDictSet p.1 p.2 m) cls.defaults) = some (.str client.deviceTid)
    rw [List.foldl_cons, pyDictGet_foldl_set_of_ne (strL "tid") kwargs hk,
      pyDictGet_set_self]

/-- Witness for C9 at concrete inputs (no `tid` keyword supplied). -/
theorem c9_tid_bound_to_client_witness :
    pyDictHasKey (strL "tid") [(strL "aid", PyValue.str (strL "1-A-1-L1"))] = false ∧
    pyDictGet (strL "tid")
      (mkCommand ⟨strL "RetrieveOts", strL "RTRV", strL "OTS",
          strL "RTRV-OTS:[<TID>]:[<AID>]:<CTAG>::::", [(strL "ctag", .str DEFAULT_CTAG)]⟩
        (strL "TID1") [(strL "aid", PyValue.str (strL "1-A-1-L1"))]).attrs =
      some (.str (strL "TID1")) :=
  ⟨by decide,
   (c9_tid_bound_to_client id ⟨strL "uuid1", strL "TID1", fun _ => []⟩
      ⟨strL "RetrieveOts", strL "RTRV", strL "OTS",
        strL "RTRV-OTS:[<TID>]:[<AID>]:<CTAG>::::", [(strL "ctag", .str DEFAULT_CTAG)]⟩
      [(strL "aid", PyValue.str (strL "1-A-1-L1"))]).2 (by decide)⟩

/-- Claim C7: for every command name and identical keyword arguments,
the eagerly bound method (built by `_init_command_methods` from the
registry at construction time) and the lazy `__getattr__` fallback
resolve to the same command class, produce byte-identical serialized
requests, and return identical results. -/
theorem c7_eager_lazy_equivalent (rename : List TL1Record → List TL1Record)
    (client : FlexILSClientModel) (reg : List (List Char × TL1CommandClass))
    (name : List Char) (kwargs : TL1Record) :
    invokeEager rename client reg name kwargs = invokeLazy rename client reg name kwargs ∧
    eagerRequest client.deviceTid reg name kwargs =
      lazyRequest client.deviceTid reg name kwargs := by
  constructor
  · show (pyDictGet name (reg.map fun e =>
        (e.1, executeCommandMethod rename client e.2))).map
          (fun f => f kwargs) = _
    rw [pyDictGet_map (executeCommandMethod rename client)]
    unfold invokeLazy resolveAttr
    cases pyDictGet name reg <;> rfl
  · show (pyDictGet name (reg.map fun e =>
        (e.1, requestString client.deviceTid e.2))).map
          (fun f => f kwargs) = _
    rw [pyDictGet_map (requestString client.deviceTid)]
    unfold lazyRequest
    cases pyDictGet name reg <;> rfl

/-- Claim C2 (collision in the code): `MaintenanceSch` and
`RestoreAdminStateSch` are distinct registered classes whose derived
method name is the same `rmv_sch`, and `TL1CommandRegistry.register`
silently replaces the earlier entry with the later one. -/
theorem c2_registry_silent_collision :
    derivedMethodName maintenanceSchId.verb maintenanceSchId.modifier =
      derivedMethodName restoreAdminStateSchId.verb restoreAdminStateSchId.modifier ∧
    derivedMethodName maintenanceSchId.verb maintenanceSchId.modifier = strL "rmv_sch" ∧
    maintenanceSchId ≠ restoreAdminStateSchId ∧
    registryRegister restoreAdminStateSchId (registryRegister maintenanceSchId []) =
      [(strL "rmv_sch", restoreAdminStateSchId)] := by
  refine ⟨by decide, by decide, by decide, by decide⟩

/-- Claim C4 (counterexample to "no error is raised"): a response that
contains both `DENY` and `ALREADY` but not the correlation tag still
raises an error — `execute` proceeds to parse and `from_raw_text` fails
with `ValueError` on the missing tag, so "no error is raised and the
response is parsed and returned" is false as stated. -/
theorem c4_deny_already_counterexample :
    containsSub DENY (strL "DENY ALREADY") = true ∧
    containsSub ALREADY (strL "DENY ALREADY") = true ∧
    executeCommand id (strL "uuid1") (fun _ => strL "DENY ALREADY") denyProbeCommand =
      .error .valueError := by
  refine ⟨by decide, by decide, by rfl⟩

/-- Claim C4 (amended): when the raw response contains `DENY` and not
`ALREADY`, `execute` raises `TL1CommandDeniedError` carrying the device
id, the exact serialized command and the raw response; when the response
contains `DENY` together with `ALREADY`, no `TL1CommandDeniedError` is
raised and execution returns exactly the result of parsing the response
(the parsed envelope whenever parsing succeeds). -/
theorem c4_deny_already (rename : List TL1Record → List TL1Record)
    (deviceUuid : List Char) (transport : List Char → List Char) (cmd : TL1Command) :
    (containsSub DENY (transport (toStringModel cmd)) = true →
      containsSub ALREADY (transport (toStringModel cmd)) = false →
      executeCommand rename deviceUuid transport cmd =
        .error (.commandDenied deviceUuid (toStringModel cmd)
          (transport (toStringModel cmd)))) ∧
    (containsSub DENY (transport (toStringModel cmd)) = true →
      containsSub ALREADY (transport (toStringModel cmd)) = true →
      executeCommand rename deviceUuid transport cmd =
        fromRawText rename (transport (toStringModel cmd)) (cmdCtag cmd)) := by
  constructor
  · intro h1 h2
    simp [executeCommand, h1, h2]
  · intro h1 h2
    simp [executeCommand, h1, h2]

/-- Witness for C4 at concrete transports (a denied response without
`ALREADY`, and a tagged denied response with `ALREADY`). -/
theorem c4_deny_already_witness :
    executeCommand id (strL "uuid1") (fun _ => strL "DENY") denyProbeCommand =
      .error (.commandDenied (strL "uuid1") (toStringModel denyProbeCommand)
        (strL "DENY")) ∧
    executeCommand id (strL "uuid1") (fun _ => strL "100 DENY ALREADY") denyProbeCommand =
      fromRawText id (strL "100 DENY ALREADY") (cmdCtag denyProbeCommand) :=
  ⟨(c4_deny_already id (strL "uuid1") (fun _ => strL "DENY") denyProbeCommand).1
      (by decide) (by decide),
   (c4_deny_already id (strL "uuid1") (fun _ => strL "100 DENY ALREADY")
      denyProbeCommand).2 (by decide) (by decide)⟩

/-- Claim C5: serializing `RetrieveOts` with `aid = "1-A-1-L1"`, no TID
and an arbitrary correlation tag yields exactly
`RTRV-OTS::1-A-1-L1:<CTAG>::::;` — the absent optional TID leaves an
empty section, the four trailing empty template sections are preserved,
and the string ends with `;`. -/
theorem c5_retrieve_ots_serialization (ctag : List Char) :
    toStringModel (retrieveOtsCommand (strL "1-A-1-L1") ctag) =
      strL "RTRV-OTS::1-A-1-L1:" ++ ctag ++ strL "::::;" := by
  cases ctag with
  | nil => rfl
  | cons c cs =>
    simp [toStringModel, retrieveOtsCommand, renderSection, renderPart, pySplitChar,
      joinWith, stripSet, stripLeftSet, pyDictGet, replaceChar, pyLower, pyStrOf,
      strL, replaceOpenBracketComma, replaceCommaCloseBracket, pyIsSpace]

/-- Claim C10 (counterexample): in the message `X -C` with tag `X`, a
word character (`C`) does follow the last tag occurrence, yet
`from_raw_text` crashes with `AttributeError` instead of extracting the
status `C` — the regex `\s*(\w+)` requires the first non-whitespace
character after the tag to be a word character. -/
theorem c10_status_counterexample :
    (strL " -C").any pyIsWord = true ∧
    pyRfind (strL "X") (strL "X -C") = some 0 ∧
    (strL "X -C").drop (0 + (strL "X").length) = strL " -C" ∧
    fromRawText id (strL "X -C") (strL "X") = .error .attributeError := by
  refine ⟨by decide, by decide, by decide, by rfl⟩

/-- Claim C10 (amended): when the tag occurs (last occurrence at index
`i`), `from_raw_text` extracts a status without crashing exactly when
the first character after the last tag occurrence and any following
whitespace exists and is a word character; the status is then the
maximal word-character run from that point.  Otherwise the status-match
branch fails with an unclassified `AttributeError`. -/
theorem c10_status_extraction (rename : List TL1Record → List TL1Record)
    (msg tag : List Char) (i : Nat) (h : pyRfind tag msg = some i) :
    (((msg.drop (i + tag.length)).dropWhile pyIsSpace).head? = none →
      fromRawText rename msg tag = .error .attributeError) ∧
    (∀ c, ((msg.drop (i + tag.length)).dropWhile pyIsSpace).head? = some c →
      (pyIsWord c = false → fromRawText rename msg tag = .error .attributeError) ∧
      (pyIsWord c = true → ∃ e, fromRawText rename msg tag = .ok e ∧
        e.status = ((msg.drop (i + tag.length)).dropWhile pyIsSpace).takeWhile pyIsWord)) := by
  constructor
  · intro hn
    have hsm : pyStatusMatch (msg.drop (i + tag.length)) = none := by
      rw [List.head?_eq_none_iff] at hn
      simp [pyStatusMatch, hn]
    simp [fromRawText, h, hsm]
  · intro c hc
    obtain ⟨rest, hrest⟩ : ∃ rest,
        (msg.drop (i + tag.length)).dropWhile pyIsSpace = c :: rest := by
      cases hd : (msg.drop (i + tag.length)).dropWhile pyIsSpace with
      | nil => rw [hd] at hc; cases hc
      | cons a as =>
        rw [hd] at hc
        exact ⟨as, by rw [List.head?_cons] at hc; rw [Option.some_inj] at hc; rw [hc]⟩
    constructor
    · intro hw
      have hsm : pyStatusMatch (msg.drop (i + tag.length)) = none := by
        simp [pyStatusMatch, hrest, hw]
      simp [fromRawText, h, hsm]
    · intro hw
      have hsm : pyStatusMatch (msg.drop (i + tag.length)) =
          some (((msg.drop (i + tag.length)).dropWhile pyIsSpace).takeWhile pyIsWord) := by
        simp [pyStatusMatch, hrest, hw]
      refine ⟨{ status := ((msg.drop (i + tag.length)).dropWhile pyIsSpace).takeWhile pyIsWord,
                rawData := msg.drop ((pyFind tag msg).getD 0),
                parsedData := rename
                  ((pySplitlines (pyStripWs (msg.drop ((pyFind tag msg).getD 0)))).tail.filterMap
                    parseLine),
                ctag := tag }, ?_, rfl⟩
      simp [fromRawText, h, hsm]

/-- Witness for C10 at a concrete tagged message with a status word. -/
theorem c10_status_extraction_witness :
    pyRfind (strL "Z7") (strL "Z7 COMPLD") = some 0 ∧
    ∃ e, fromRawText id (strL "Z7 COMPLD") (strL "Z7") = .ok e ∧
      e.status = strL "COMPLD" := by
  have h : pyRfind (strL "Z7") (strL "Z7 COMPLD") = some 0 := by decide
  refine ⟨h, ?_⟩
  obtain ⟨e, he, hs⟩ :=
    ((c10_status_extraction id (strL "Z7 COMPLD") (strL "Z7") 0 h).2 'C'
      (by decide)).2 (by decide)
  exact ⟨e, he, by rw [hs]; decide⟩

/-- Claim C1 (counterexample): on the data line
`"AID=\"a,b:c\",LABEL=\"x:y\""` the parser does produce two named
fields and does not split inside the escaped-quoted spans, but the
values are not `a,b:c` and `x:y`: they retain the escape sequences. -/
theorem c1_tokenizer_counterexample :
    fromRawText id c1Message (strL "123") =
      .ok { status := strL "COMPLD", rawData := c1Message,
            parsedData := [c1Record], ctag := strL "123" } ∧
    pyDictGet (strL "AID") c1Record ≠ some (.str (strL "a,b:c")) ∧
    pyDictGet (strL "LABEL") c1Record ≠ some (.str (strL "x:y")) := by
  refine ⟨by rfl, by decide, by decide⟩

/-- Claim C1 (amended): the line `"AID=\"a,b:c\",LABEL=\"x:y\""` parses
into exactly one record of exactly two named fields `AID` and `LABEL`
(the quote-aware tokenizer treats no colon or comma inside the
escaped-quoted spans as a delimiter, so no extra field arises), but the
values keep their escape characters: `AID` is `\"a,b:c\"` and `LABEL`
is `\"x:y\` (the final escaped quote loses its quote character to the
outer `strip('"')`). -/
theorem c1_tokenizer_quoted_fields :
    fromRawText id c1Message (strL "123") =
      .ok { status := strL "COMPLD", rawData := c1Message,
            parsedData := [[(strL "AID", .str (strL "\\\"a,b:c\\\"")),
                            (strL "LABEL", .str (strL "\\\"x:y\\"))]],
            ctag := strL "123" } := by
  rfl

/-! Helper lemmas for the round-trip property (C6). -/

theorem mem_of_head?_some {α : Type} {l : List α} {a : α} (h : l.head? = some a) :
    a ∈ l := by
  cases l with
  | nil => cases h
  | cons x xs =>
    rw [List.head?_cons, Option.some_inj] at h
    rw [← h]
    exact List.mem_cons_self x xs

theorem mem_joinWith (sep : List Char) (xs : List (List Char)) (c : Char)
    (h : c ∈ joinWith sep xs) : c ∈ sep ∨ ∃ x ∈ xs, c ∈ x := by
  induction xs with
  | nil => cases h
  | cons x rest ih =>
    cases rest with
    | nil =>
      right
      exact ⟨x, List.mem_cons_self _ _, h⟩
    | cons y rest2 =>
      rw [show joinWith sep (x :: y :: rest2) = x ++ sep ++ joinWith sep (y :: rest2)
        from rfl] at h
      rcases List.mem_append.mp h with h1 | h2
      · rcases List.mem_append.mp h1 with hx | hs
        · exact Or.inr ⟨x, List.mem_cons_self _ _, hx⟩
        · exact Or.inl hs
      · rcases ih h2 with hs | ⟨z, hz, hc⟩
        · exact Or.inl hs
        · exact Or.inr ⟨z, List.mem_cons_of_mem _ hz, hc⟩

theorem alnum_ne_of_not_alnum {c d : Char} (hc : alnumChar c = true)
    (hd : alnumChar d = false) : c ≠ d := by
  intro he
  rw [he, hd] at hc
  cases hc

theorem alnum_not_space {c : Char} (hc : alnumChar c = true) : pyIsSpace c = false := by
  cases hs : pyIsSpace c with
  | false => rfl
  | true =>
    exfalso
    have hcs : c = ' ' ∨ c = '\t' ∨ c = '\n' ∨ c = '\r' ∨ c = '\x0b' ∨ c = '\x0c' := by
      simpa [pyIsSpace] using hs
    rcases hcs with h | h | h | h | h | h <;> rw [h] at hc <;> cases hc

/-- Character classes occurring in a clean serialized value: the
alphanumeric element characters plus the list separators `&` and `-`. -/
theorem renderValue_chars (v : PyValue) (h : cleanValue v = true) :
    ∀ c ∈ renderValue v, alnumChar c = true ∨ c = '&' ∨ c = '-' := by
  intro c hc
  cases v with
  | str s =>
    left
    have hall : ∀ d ∈ s, alnumChar d = true := by
      simp [cleanValue] at h
      exact h.2
    exact hall c hc
  | list xs =>
    have hall : ∀ x ∈ xs, ∀ d ∈ x, alnumChar d = true := by
      simp [cleanValue] at h
      exact h.2
    rcases mem_joinWith _ _ _ hc with hs | ⟨x, hx, hcx⟩
    · right; left
      simpa using hs
    · left; exact hall x hx c hcx
  | lol xss =>
    have hall : ∀ row ∈ xss, ∀ x ∈ row, ∀ d ∈ x, alnumChar d = true := by
      simp [cleanValue] at h
      intro row hrow x hx d hd
      exact (h.2 row hrow).2 x hx d hd
    rcases mem_joinWith _ _ _ hc with hs | ⟨r, hr, hcr⟩
    · rcases List.mem_cons.mp hs with hs1 | hs1
      · right; left; exact hs1
      · right; right; simpa using hs1
    · obtain ⟨row, hrow, hre⟩ := List.mem_map.mp hr
      rcases mem_joinWith _ _ _ (hre ▸ hcr) with hs | ⟨x, hx, hcx⟩
      · right; left; simpa using hs
      · left; exact hall row hrow x hx c hcx

/-- A character that is neither alphanumeric nor `&` nor `-` does not
occur in a clean serialized value. -/
theorem renderValue_not_mem (v : PyValue) (h : cleanValue v = true) (d : Char)
    (hd : alnumChar d = false) (hd2 : d ≠ '&') (hd3 : d ≠ '-') :
    d ∉ renderValue v := by
  intro hmem
  rcases renderValue_chars v h d hmem with ha | ha | ha
  · rw [hd] at ha; cases ha
  · exact hd2 ha
  · exact hd3 ha

theorem pySplitChar_ne_nil (d : Char) (l : List Char) : pySplitChar d l ≠ [] := by
  cases l with
  | nil => simp [pySplitChar]
  | cons c rest =>
    rw [pySplitChar]
    cases pySplitChar d rest with
    | nil => simp
    | cons h t =>
      by_cases hc : c = d
      · simp [hc]
      · simp [hc]

theorem pySplitChar_no_sep (d : Char) (xs : List Char) (h : ∀ c ∈ xs, c ≠ d) :
    pySplitChar d xs = [xs] := by
  induction xs with
  | nil => rfl
  | cons c rest ih =>
    have hc : c ≠ d := h c (List.mem_cons_self _ _)
    have hr : pySplitChar d rest = [rest] :=
      ih fun x hx => h x (List.mem_cons_of_mem _ hx)
    rw [pySplitChar, hr]
    simp [hc]

theorem pySplitChar_append_sep (d : Char) (xs l : List Char) (h : ∀ c ∈ xs, c ≠ d) :
    pySplitChar d (xs ++ d :: l) = xs :: pySplitChar d l := by
  induction xs with
  | nil =>
    rw [List.nil_append, pySplitChar]
    cases hl : pySplitChar d l with
    | nil => exact absurd hl (pySplitChar_ne_nil d l)
    | cons a t => simp
  | cons c rest ih =>
    have hc : c ≠ d := h c (List.mem_cons_self _ _)
    have hr := ih fun x hx => h x (List.mem_cons_of_mem _ hx)
    rw [List.cons_append, pySplitChar, hr]
    cases hl : pySplitChar d l with
    | nil => exact absurd hl (pySplitChar_ne_nil d l)
    | cons a t => simp [hc]

theorem pySplitChar_joinWith_amp (xs : List (List Char)) (hne : xs ≠ [])
    (h : ∀ x ∈ xs, ∀ c ∈ x, c ≠ '&') :
    pySplitChar '&' (joinWith ['&'] xs) = xs := by
  induction xs with
  | nil => exact absurd rfl hne
  | cons x rest ih =>
    cases rest with
    | nil =>
      rw [show joinWith ['&'] [x] = x from rfl]
      exact pySplitChar_no_sep '&' x (h x (List.mem_cons_self _ _))
    | cons y rest2 =>
      have hx : ∀ c ∈ x, c ≠ '&' := h x (List.mem_cons_self _ _)
      have hr := ih (by simp) fun z hz => h z (List.mem_cons_of_mem _ hz)
      rw [show joinWith ['&'] (x :: y :: rest2) =
        x ++ '&' :: joinWith ['&'] (y :: rest2) from by
          rw [show joinWith ['&'] (x :: y :: rest2) =
            x ++ ['&'] ++ joinWith ['&'] (y :: rest2) from rfl]
          rw [List.append_assoc]
          rfl]
      rw [pySplitChar_append_sep '&' _ _ hx, hr]

theorem containsAmpDash_eq_false (l : List Char) (h : '-' ∉ l) :
    containsAmpDash l = false := by
  induction l with
  | nil => rfl
  | cons c rest ih =>
    cases rest with
    | nil => rfl
    | cons d rest2 =>
      have hd : d ≠ '-' := by
        intro he
        exact h (by rw [he] at *; exact List.mem_cons_of_mem _ (List.mem_cons_self _ _))
      rw [containsAmpDash, if_neg (by intro hh; exact hd hh.2)]
      exact ih fun hm => h (List.mem_cons_of_mem _ hm)

theorem containsAmpDash_marker (a b : List Char) :
    containsAmpDash (a ++ '&' :: '-' :: b) = true := by
  induction a with
  | nil => rfl
  | cons c rest ih =>
    rw [List.cons_append]
    cases hr : rest ++ '&' :: '-' :: b with
    | nil => exact absurd hr (by simp)
    | cons d rest2 =>
      rw [containsAmpDash]
      by_cases hcd : c = '&' ∧ d = '-'
      · rw [if_pos hcd]
      · rw [if_neg hcd, ← hr]
        exact ih

theorem splitAmpDashGo_no_marker (p : List Char) (h : '-' ∉ p) :
    ∀ cur, splitAmpDashGo cur p = [cur.reverse ++ p] := by
  induction p with
  | nil => intro cur; simp [splitAmpDashGo]
  | cons c rest ih =>
    intro cur
    cases rest with
    | nil => simp [splitAmpDashGo]
    | cons d rest2 =>
      have hd : d ≠ '-' := fun he =>
        h (by rw [← he] at *; exact List.mem_cons_of_mem _ (List.mem_cons_self _ _))
      rw [splitAmpDashGo, if_neg (by intro hh; exact hd hh.2)]
      rw [ih (fun hm => h (List.mem_cons_of_mem _ hm)) (c :: cur)]
      simp

theorem splitAmpDashGo_append (p : List Char) (h : '-' ∉ p) :
    ∀ (b : List Char) cur, splitAmpDashGo cur (p ++ '&' :: '-' :: b) =
      (cur.reverse ++ p) :: splitAmpDashGo [] b := by
  induction p with
  | nil =>
    intro b cur
    rw [List.nil_append, splitAmpDashGo, if_pos ⟨rfl, rfl⟩]
    simp
  | cons c rest ih =>
    intro b cur
    rw [List.cons_append]
    cases hr : rest ++ '&' :: '-' :: b with
    | nil => exact absurd hr (by simp)
    | cons d rest2 =>
      have hd2 : ¬ (c = '&' ∧ d = '-') := by
        intro hh
        cases rest with
        | nil =>
          rw [List.nil_append] at hr
          rw [List.cons.injEq] at hr
          exact absurd (hr.1.trans hh.2) (by decide)
        | cons e rest3 =>
          rw [List.cons_append, List.cons.injEq] at hr
          have he : e = '-' := hr.1.trans hh.2
          exact h (by rw [he]; exact List.mem_cons_of_mem _ (List.mem_cons_self _ _))
      rw [splitAmpDashGo, if_neg hd2, ← hr]
      rw [ih (fun hm => h (List.mem_cons_of_mem _ hm)) b (c :: cur)]
      simp

theorem splitAmpDash_joinWith (parts : List (List Char)) (hne : parts ≠ [])
    (h : ∀ p ∈ parts, '-' ∉ p) :
    splitAmpDash (joinWith ['&', '-'] parts) = parts := by
  induction parts with
  | nil => exact absurd rfl hne
  | cons p rest ih =>
    cases rest with
    | nil =>
      rw [show joinWith ['&', '-'] [p] = p from rfl, splitAmpDash]
      rw [splitAmpDashGo_no_marker p (h p (List.mem_cons_self _ _)) []]
      simp
    | cons q rest2 =>
      have hp : '-' ∉ p := h p (List.mem_cons_self _ _)
      have hr := ih (by simp) fun z hz => h z (List.mem_cons_of_mem _ hz)
      rw [show joinWith ['&', '-'] (p :: q :: rest2) =
        p ++ '&' :: '-' :: joinWith ['&', '-'] (q :: rest2) from by
          rw [show joinWith ['&', '-'] (p :: q :: rest2) =
            p ++ ['&', '-'] ++ joinWith ['&', '-'] (q :: rest2) from rfl]
          rw [List.append_assoc]
          rfl]
      rw [splitAmpDash, splitAmpDashGo_append p hp _ []]
      rw [List.reverse_nil, List.nil_append]
      rw [show splitAmpDashGo [] (joinWith ['&', '-'] (q :: rest2)) =
        splitAmpDash (joinWith ['&', '-'] (q :: rest2)) from rfl, hr]

/-- On backslash-free text the quote-aware scanner never enters quoted
mode, so it degenerates to a plain character split. -/
theorem spqGo_clean (text : List Char) (h : '\\' ∉ text) (d : Char) :
    ∀ cur, spqGo d false cur text =
      (cur.reverse ++ (pySplitChar d text).headD []) :: (pySplitChar d text).tail := by
  induction text with
  | nil => intro cur; simp [spqGo, pySplitChar]
  | cons a rest ih =>
    intro cur
    have hrest : '\\' ∉ rest := fun hm => h (List.mem_cons_of_mem _ hm)
    have ha : a ≠ '\\' := fun he => h (he ▸ List.mem_cons_self _ _)
    have hQ : spqGo d false cur (a :: rest) =
        if a = d then cur.reverse :: spqGo d false [] rest
        else spqGo d false (a :: cur) rest := by
      cases rest with
      | nil => simp [spqGo]
      | cons b rest2 =>
        cases rest2 with
        | nil => simp [spqGo]
        | cons e rest3 =>
          have hb : b ≠ '\\' := fun he => hrest (he ▸ List.mem_cons_self _ _)
          have henter : ¬ ((a = '=' ∧ b = '\\' ∧ e = '"') ∨
              (a = ':' ∧ b = '\\' ∧ e = '"')) := by
            intro hh
            rcases hh with ⟨_, h2, _⟩ | ⟨_, h2, _⟩ <;> exact hb h2
          have hexit : ¬ (a = '\\' ∧ b = '"' ∧ (e = ',' ∨ e = ':')) := fun hh => ha hh.1
          simp only [spqGo, if_neg henter, if_neg hexit]
          by_cases had : a = d
          · simp [had]
          · simp [had]
    rw [hQ]
    by_cases had : a = d
    · rw [if_pos had, ih hrest []]
      rw [show pySplitChar d (a :: rest) = [] :: pySplitChar d rest from by
        rw [pySplitChar]
        cases hs : pySplitChar d rest with
        | nil => exact absurd hs (pySplitChar_ne_nil d rest)
        | cons x t => simp [had]]
      cases hs : pySplitChar d rest with
      | nil => exact absurd hs (pySplitChar_ne_nil d rest)
      | cons x t => simp
    · rw [if_neg had, ih hrest (a :: cur)]
      rw [show pySplitChar d (a :: rest) =
          (a :: (pySplitChar d rest).headD []) :: (pySplitChar d rest).tail from by
        rw [pySplitChar]
        cases hs : pySplitChar d rest with
        | nil => exact absurd hs (pySplitChar_ne_nil d rest)
        | cons x t => simp [had]]
      simp

/-- The tokenizer on backslash-free text is Python `str.split`. -/
theorem splitPreservingQuotes_clean (text : List Char) (h : '\\' ∉ text) (d : Char) :
    splitPreservingQuotes text d = pySplitChar d text := by
  rw [splitPreservingQuotes, spqGo_clean text h d []]
  cases hs : pySplitChar d text with
  | nil => exact absurd hs (pySplitChar_ne_nil d text)
  | cons x t => simp

theorem dropWhile_eq_self_of_head (p : Char → Bool) (l : List Char)
    (h : ∀ c, l.head? = some c → p c = false) : l.dropWhile p = l := by
  cases l with
  | nil => rfl
  | cons c rest =>
    rw [List.dropWhile_cons, h c rfl]
    simp

theorem stripTwice_eq_self (p : Char → Bool) (l : List Char)
    (h1 : ∀ c, l.head? = some c → p c = false)
    (h2 : ∀ c, l.getLast? = some c → p c = false) :
    ((l.dropWhile p).reverse.dropWhile p).reverse = l := by
  rw [dropWhile_eq_self_of_head p l h1]
  rw [dropWhile_eq_self_of_head p l.reverse
    (fun c hc => h2 c (by rwa [List.head?_reverse] at hc))]
  exact List.reverse_reverse l

theorem stripTwice_wrap (p : Char → Bool) (a b : Char) (l : List Char)
    (ha : p a = true) (hb : p b = true)
    (h1 : ∀ c, l.head? = some c → p c = false)
    (h2 : ∀ c, l.getLast? = some c → p c = false) :
    (((a :: (l ++ [b])).dropWhile p).reverse.dropWhile p).reverse = l := by
  rw [List.dropWhile_cons, ha]
  simp only [if_true]
  cases l with
  | nil =>
    simp [List.dropWhile, hb]
  | cons c rest =>
    have hc : p c = false := h1 c rfl
    rw [show ((c :: rest) ++ [b]).dropWhile p = (c :: rest) ++ [b] from by
      rw [List.cons_append, List.dropWhile_cons, hc]; simp]
    rw [show ((c :: rest) ++ [b]).reverse = b :: (c :: rest).reverse from by
      simp]
    rw [List.dropWhile_cons, hb]
    simp only [if_true]
    rw [dropWhile_eq_self_of_head p (c :: rest).reverse
      (fun x hx => h2 x (by rwa [List.head?_reverse] at hx))]
    exact List.reverse_reverse _

theorem pySplitlinesGo_cons_other (c : Char) (cur rest : List Char)
    (h1 : c ≠ '\r') (h2 : c ≠ '\n') :
    pySplitlinesGo cur (c :: rest) = pySplitlinesGo (c :: cur) rest := by
  rw [pySplitlinesGo.eq_def]
  simp [h1, h2]

theorem pySplitlinesGo_newline (cur : List Char) (d : Char) (rest2 : List Char) :
    pySplitlinesGo cur ('\n' :: d :: rest2) =
      cur.reverse :: pySplitlinesGo [] (d :: rest2) := by
  rw [pySplitlinesGo.eq_def]
  simp

theorem pySplitlinesGo_no_newline (l : List Char)
    (h : ∀ c ∈ l, c ≠ '\n' ∧ c ≠ '\r') :
    ∀ cur, pySplitlinesGo cur l = [cur.reverse ++ l] := by
  induction l with
  | nil => intro cur; simp [pySplitlinesGo]
  | cons c rest ih =>
    intro cur
    have hc := h c (List.mem_cons_self _ _)
    rw [pySplitlinesGo_cons_other c cur rest hc.2 hc.1]
    rw [ih (fun x hx => h x (List.mem_cons_of_mem _ hx)) (c :: cur)]
    simp

theorem pySplitlinesGo_line (pre : List Char)
    (h : ∀ c ∈ pre, c ≠ '\n' ∧ c ≠ '\r') :
    ∀ (d : Char) (rest2 : List Char) cur,
      pySplitlinesGo cur (pre ++ '\n' :: d :: rest2) =
        (cur.reverse ++ pre) :: pySplitlinesGo [] (d :: rest2) := by
  induction pre with
  | nil =>
    intro d rest2 cur
    rw [List.nil_append, pySplitlinesGo_newline]
    simp
  | cons c rest ih =>
    intro d rest2 cur
    have hc := h c (List.mem_cons_self _ _)
    rw [List.cons_append, pySplitlinesGo_cons_other c cur _ hc.2 hc.1]
    rw [ih (fun x hx => h x (List.mem_cons_of_mem _ hx)) d rest2 (c :: cur)]
    simp

theorem pyRfind_head_none (a : Char) (pat text : List Char) (h : a ∉ text) :
    pyRfind (a :: pat) text = none := by
  induction text with
  | nil => simp [pyRfind]
  | cons c rest ih =>
    have hc : c ≠ a := fun he => h (he ▸ List.mem_cons_self _ _)
    rw [pyRfind, ih (fun hm => h (List.mem_cons_of_mem _ hm))]
    rw [show (a :: pat).isPrefixOf (c :: rest) = (a == c && pat.isPrefixOf rest)
      from rfl]
    have : (a == c) = false := by
      cases hbe : a == c with
      | false => rfl
      | true => exact absurd (eq_of_beq hbe).symm hc
    rw [this]
    simp

theorem pyFind_head_none (a : Char) (pat text : List Char) (h : a ∉ text) :
    pyFind (a :: pat) text = none := by
  induction text with
  | nil => simp [pyFind]
  | cons c rest ih =>
    have hc : c ≠ a := fun he => h (he ▸ List.mem_cons_self _ _)
    rw [pyFind]
    have hpre : (a :: pat).isPrefixOf (c :: rest) = false := by
      rw [show (a :: pat).isPrefixOf (c :: rest) = (a == c && pat.isPrefixOf rest)
        from rfl]
      have : (a == c) = false := by
        cases hbe : a == c with
        | false => rfl
        | true => exact absurd (eq_of_beq hbe).symm hc
      rw [this]
      rfl
    rw [hpre, ih (fun hm => h (List.mem_cons_of_mem _ hm))]
    simp

/-- The last occurrence of the two-character tag `aa` in `a :: a :: t0`
is at index 0 when `a` does not occur in `t0`. -/
theorem pyRfind_double_head (a : Char) (t0 : List Char) (h : a ∉ t0) :
    pyRfind [a, a] (a :: a :: t0) = some 0 := by
  have h1 : pyRfind [a, a] t0 = none := pyRfind_head_none a [a] t0 h
  have h2 : pyRfind [a, a] (a :: t0) = none := by
    rw [pyRfind, h1]
    have hpre : ([a, a] : List Char).isPrefixOf (a :: t0) = false := by
      rw [show ([a, a] : List Char).isPrefixOf (a :: t0) =
        (a == a && ([a] : List Char).isPrefixOf t0) from rfl]
      have : ([a] : List Char).isPrefixOf t0 = false := by
        cases t0 with
        | nil => rfl
        | cons c rest =>
          rw [show ([a] : List Char).isPrefixOf (c :: rest) =
            (a == c && ([] : List Char).isPrefixOf rest) from rfl]
          have hc : (a == c) = false := by
            cases hbe : a == c with
            | false => rfl
            | true => exact absurd (eq_of_beq hbe) (fun he => h (he ▸ List.mem_cons_self _ _))
          rw [hc]
          rfl
      rw [this]
      simp
    rw [hpre]
    simp
  rw [pyRfind, h2]
  rw [show ([a, a] : List Char).isPrefixOf (a :: a :: t0) = true from by
    rw [show ([a, a] : List Char).isPrefixOf (a :: a :: t0) =
      (a == a && (a == a && ([] : List Char).isPrefixOf t0)) from rfl]
    simp [List.isPrefixOf]]
  simp

theorem mem_of_getLast?_some {α : Type} {l : List α} {a : α} (h : l.getLast? = some a) :
    a ∈ l := by
  have hrev : l.reverse.head? = some a := by rwa [List.head?_reverse]
  exact List.mem_reverse.mp (mem_of_head?_some hrev)

theorem contains_eq_false_of_not_mem (a : Char) (l : List Char) (h : a ∉ l) :
    l.contains a = false := by
  induction l with
  | nil => rfl
  | cons c rest ih =>
    rw [show (c :: rest).contains a = (a == c || rest.contains a) from rfl]
    have hc : (a == c) = false := by
      cases hbe : a == c with
      | false => rfl
      | true => exact absurd (eq_of_beq hbe ▸ List.mem_cons_self c rest) h
    rw [hc, ih fun hm => h (List.mem_cons_of_mem _ hm)]
    rfl

theorem contains_eq_true_of_mem (a : Char) (l : List Char) (h : a ∈ l) :
    l.contains a = true := by
  induction l with
  | nil => cases h
  | cons c rest ih =>
    rw [show (c :: rest).contains a = (a == c || rest.contains a) from rfl]
    rcases List.mem_cons.mp h with he | hm
    · rw [he]
      simp
    · rw [ih hm]
      simp

/-- Characters of a serialized flat list: element characters or `&`. -/
theorem joinWith_amp_chars (xs : List (List Char))
    (h : ∀ x ∈ xs, ∀ d ∈ x, alnumChar d = true) :
    ∀ c ∈ joinWith ['&'] xs, alnumChar c = true ∨ c = '&' := by
  intro c hc
  rcases mem_joinWith _ _ _ hc with hs | ⟨x, hx, hcx⟩
  · right; simpa using hs
  · left; exact h x hx c hcx

theorem renderValue_no_space (v : PyValue) (h : cleanValue v = true) :
    ∀ c ∈ renderValue v, pyIsSpace c = false := by
  intro c hc
  rcases renderValue_chars v h c hc with ha | ha | ha
  · exact alnum_not_space ha
  · rw [ha]; rfl
  · rw [ha]; rfl

/-- Core decoding round trip: on a clean value, the parser's field-value
decoder inverts the serializer's value rendering. -/
theorem decodeFieldValue_renderValue (v : PyValue) (h : cleanValue v = true) :
    decodeFieldValue (renderValue v) = v := by
  have hstrip : pyStripWs (renderValue v) = renderValue v := by
    refine stripTwice_eq_self pyIsSpace _ ?_ ?_
    · intro c hc
      exact renderValue_no_space v h c (mem_of_head?_some hc)
    · intro c hc
      exact renderValue_no_space v h c (mem_of_getLast?_some hc)
  have hquote : ¬ ((renderValue v).head? = some '"' ∧
      (renderValue v).getLast? = some '"') := by
    intro hq
    exact renderValue_not_mem v h '"' (by decide) (by decide) (by decide)
      (mem_of_head?_some hq.1)
  cases v with
  | str s =>
    have hchar : ∀ d ∈ s, alnumChar d = true := by
      simp [cleanValue] at h
      exact h.2
    have hdash : '-' ∉ s := fun hm =>
      absurd (hchar '-' hm) (by decide)
    have hamp : '&' ∉ s := fun hm =>
      absurd (hchar '&' hm) (by decide)
    rw [decodeFieldValue]
    simp only [renderValue] at hstrip hquote ⊢
    rw [hstrip, if_neg hquote]
    rw [containsAmpDash_eq_false s hdash]
    rw [contains_eq_false_of_not_mem '&' s hamp]
    rfl
  | list xs =>
    have hlen : 2 ≤ xs.length ∧ ∀ x ∈ xs, ∀ d ∈ x, alnumChar d = true := by
      simp [cleanValue] at h
      exact h
    obtain ⟨x, y, rest, hxs⟩ : ∃ x y rest, xs = x :: y :: rest := by
      cases xs with
      | nil => cases hlen.1
      | cons x rest1 =>
        cases rest1 with
        | nil => exact absurd hlen.1 (by simp)
        | cons y rest2 => exact ⟨x, y, rest2, rfl⟩
    have hchars : ∀ c ∈ joinWith ['&'] xs, alnumChar c = true ∨ c = '&' :=
      joinWith_amp_chars xs hlen.2
    have hdash : '-' ∉ joinWith ['&'] xs := by
      intro hm
      rcases hchars '-' hm with ha | ha
      · exact absurd ha (by decide)
      · exact absurd ha (by decide)
    have hampfree : ∀ z ∈ xs, ∀ c ∈ z, c ≠ '&' := by
      intro z hz c hc he
      exact absurd (he ▸ hlen.2 z hz c hc) (by decide)
    have hampmem : '&' ∈ joinWith ['&'] xs := by
      rw [hxs]
      rw [show joinWith ['&'] (x :: y :: rest) =
        x ++ ['&'] ++ joinWith ['&'] (y :: rest) from rfl]
      exact List.mem_append.mpr (Or.inl (List.mem_append.mpr (Or.inr (by simp))))
    rw [decodeFieldValue]
    simp only [renderValue] at hstrip hquote ⊢
    rw [hstrip, if_neg hquote]
    rw [containsAmpDash_eq_false _ hdash]
    rw [contains_eq_true_of_mem '&' _ hampmem]
    rw [pySplitChar_joinWith_amp xs (by rw [hxs]; simp) hampfree]
    simp
  | lol xss =>
    have hprop : 2 ≤ xss.length ∧
        ∀ row ∈ xss, row ≠ [] ∧ ∀ x ∈ row, ∀ d ∈ x, alnumChar d = true := by
      simp [cleanValue] at h
      exact h
    obtain ⟨p, q, rest, hxss⟩ : ∃ p q rest, xss = p :: q :: rest := by
      cases xss with
      | nil => cases hprop.1
      | cons p rest1 =>
        cases rest1 with
        | nil => exact absurd hprop.1 (by simp)
        | cons q rest2 => exact ⟨p, q, rest2, rfl⟩
    have hpartdash : ∀ part ∈ xss.map (joinWith ['&']), '-' ∉ part := by
      intro part hpart hm
      obtain ⟨row, hrow, hre⟩ := List.mem_map.mp hpart
      rcases joinWith_amp_chars row (hprop.2 row hrow).2 '-' (hre ▸ hm) with ha | ha
      · exact absurd ha (by decide)
      · exact absurd ha (by decide)
    have hmarker : containsAmpDash (joinWith ['&', '-'] (xss.map (joinWith ['&']))) = true := by
      rw [hxss]
      rw [show (p :: q :: rest).map (joinWith ['&']) =
        joinWith ['&'] p :: joinWith ['&'] q :: rest.map (joinWith ['&']) from rfl]
      rw [show joinWith ['&', '-'] (joinWith ['&'] p :: joinWith ['&'] q ::
          rest.map (joinWith ['&'])) =
        joinWith ['&'] p ++ '&' :: '-' ::
          joinWith ['&', '-'] (joinWith ['&'] q :: rest.map (joinWith ['&'])) from by
        rw [show joinWith ['&', '-'] (joinWith ['&'] p :: joinWith ['&'] q ::
            rest.map (joinWith ['&'])) =
          joinWith ['&'] p ++ ['&', '-'] ++
            joinWith ['&', '-'] (joinWith ['&'] q :: rest.map (joinWith ['&'])) from rfl]
        rw [List.append_assoc]
        rfl]
      exact containsAmpDash_marker _ _
    rw [decodeFieldValue]
    simp only [renderValue] at hstrip hquote ⊢
    rw [hstrip, if_neg hquote]
    rw [hmarker]
    rw [splitAmpDash_joinWith (xss.map (joinWith ['&'])) (by rw [hxss]; simp) hpartdash]
    rw [show (xss.map (joinWith ['&'])).map (fun w => pySplitChar '&' w) =
      xss.map (fun row => pySplitChar '&' (joinWith ['&'] row)) from by
        rw [List.map_map]; rfl]
    rw [show xss.map (fun row => pySplitChar '&' (joinWith ['&'] row)) = xss.map id from by
      apply List.map_congr_left
      intro row hrow
      show pySplitChar '&' (joinWith ['&'] row) = row
      exact pySplitChar_joinWith_amp row (hprop.2 row hrow).1
        (fun z hz c hc he => absurd (he ▸ (hprop.2 row hrow).2 z hz c hc) (by decide))]
    rw [List.map_id]
    simp
theorem c6_serialize (v : PyValue) :
    toStringModel (retrieveOsncCommand v) =
      strL "RTRV-OSNC:::100:::OELAID=" ++ (renderValue v ++ strL ":;") := by
  simp [toStringModel, retrieveOsncCommand, renderSection, renderPart, pySplitChar,
    joinWith, stripSet, stripLeftSet, pyDictGet, replaceChar, pyLower, pyStrOf,
    strL, replaceOpenBracketComma, replaceCommaCloseBracket, pyIsSpace]

theorem c6_message (v : PyValue) :
    wrapStatusEnvelope (strL "@@") (toStringModel (retrieveOsncCommand v)) =
      strL "@@ COMPLD\n\"RTRV-OSNC:::100:::OELAID=" ++ (renderValue v ++ strL ":;\"") := by
  rw [wrapStatusEnvelope, c6_serialize]
  simp only [List.append_assoc]
  rfl

theorem getLast?_append_right {α : Type} (l1 l2 : List α) (h : l2 ≠ []) :
    (l1 ++ l2).getLast? = l2.getLast? := by
  rw [← List.head?_reverse, ← List.head?_reverse (l := l2), List.reverse_append]
  cases hrev : l2.reverse with
  | nil => exact absurd (by simpa using hrev) h
  | cons a as => simp

-- Stage probes on the canonical message
theorem c6_rfind_tag (v : PyValue) (h : cleanValue v = true) :
    pyRfind (strL "@@")
      (strL "@@ COMPLD\n\"RTRV-OSNC:::100:::OELAID=" ++ (renderValue v ++ strL ":;\"")) =
      some 0 := by
  have hM : strL "@@ COMPLD\n\"RTRV-OSNC:::100:::OELAID=" ++ (renderValue v ++ strL ":;\"") =
      '@' :: '@' :: (strL " COMPLD\n\"RTRV-OSNC:::100:::OELAID=" ++
        (renderValue v ++ strL ":;\"")) := rfl
  rw [hM]
  have hno : '@' ∉ strL " COMPLD\n\"RTRV-OSNC:::100:::OELAID=" ++
      (renderValue v ++ strL ":;\"") := by
    intro hm
    rcases List.mem_append.mp hm with h1 | h2
    · exact absurd h1 (by decide)
    · rcases List.mem_append.mp h2 with h3 | h4
      · exact renderValue_not_mem v h '@' (by decide) (by decide) (by decide) h3
      · exact absurd h4 (by decide)
  exact pyRfind_double_head '@' _ hno

theorem c6_status_match (v : PyValue) :
    pyStatusMatch
      ((strL "@@ COMPLD\n\"RTRV-OSNC:::100:::OELAID=" ++
        (renderValue v ++ strL ":;\"")).drop (0 + (strL "@@").length)) =
      some (strL "COMPLD") := by
  rfl

theorem c6_strip_message (v : PyValue) :
    pyStripWs (strL "@@ COMPLD\n\"RTRV-OSNC:::100:::OELAID=" ++
      (renderValue v ++ strL ":;\"")) =
      strL "@@ COMPLD\n\"RTRV-OSNC:::100:::OELAID=" ++ (renderValue v ++ strL ":;\"") := by
  refine stripTwice_eq_self pyIsSpace _ ?_ ?_
  · intro c hc
    have h0 : (strL "@@ COMPLD\n\"RTRV-OSNC:::100:::OELAID=" ++
        (renderValue v ++ strL ":;\"")).head? = some '@' := rfl
    rw [h0, Option.some_inj] at hc
    rw [← hc]
    rfl
  · intro c hc
    have h0 : (strL "@@ COMPLD\n\"RTRV-OSNC:::100:::OELAID=" ++
        (renderValue v ++ strL ":;\"")).getLast? = some '"' := by
      rw [getLast?_append_right _ _ (by
        intro hh
        rcases List.append_eq_nil.mp hh with ⟨h1, h2⟩
        exact absurd h2 (by decide))]
      rw [getLast?_append_right _ _ (by decide)]
      rfl
    rw [h0, Option.some_inj] at hc
    rw [← hc]
    rfl

theorem c6_splitlines (v : PyValue) (h : cleanValue v = true) :
    pySplitlines (strL "@@ COMPLD\n\"RTRV-OSNC:::100:::OELAID=" ++
      (renderValue v ++ strL ":;\"")) =
      [strL "@@ COMPLD",
       strL "\"RTRV-OSNC:::100:::OELAID=" ++ (renderValue v ++ strL ":;\"")] := by
  have hsplit : pySplitlines (strL "@@ COMPLD\n\"RTRV-OSNC:::100:::OELAID=" ++
      (renderValue v ++ strL ":;\"")) =
      pySplitlinesGo [] (strL "@@ COMPLD\n\"RTRV-OSNC:::100:::OELAID=" ++
        (renderValue v ++ strL ":;\"")) := by
    rw [show strL "@@ COMPLD\n\"RTRV-OSNC:::100:::OELAID=" ++
        (renderValue v ++ strL ":;\"") =
      '@' :: ('@' :: (strL " COMPLD\n\"RTRV-OSNC:::100:::OELAID=" ++
        (renderValue v ++ strL ":;\""))) from rfl]
    rfl
  rw [hsplit]
  rw [show strL "@@ COMPLD\n\"RTRV-OSNC:::100:::OELAID=" ++
      (renderValue v ++ strL ":;\"") =
    strL "@@ COMPLD" ++ '\n' :: ('"' :: (strL "RTRV-OSNC:::100:::OELAID=" ++
      (renderValue v ++ strL ":;\""))) from rfl]
  rw [pySplitlinesGo_line (strL "@@ COMPLD") (by decide) '"' _ []]
  rw [pySplitlinesGo_no_newline _ (by
    intro c hc
    rcases List.mem_cons.mp hc with h1 | h1
    · rw [h1]; exact ⟨by decide, by decide⟩
    · rcases List.mem_append.mp h1 with h2 | h2
      · constructor
        · intro he; exact absurd (he ▸ h2) (by decide)
        · intro he; exact absurd (he ▸ h2) (by decide)
      · rcases List.mem_append.mp h2 with h3 | h3
        · constructor
          · intro he
            exact renderValue_not_mem v h '\n' (by decide) (by decide) (by decide) (he ▸ h3)
          · intro he
            exact renderValue_not_mem v h '\r' (by decide) (by decide) (by decide) (he ▸ h3)
        · constructor
          · intro he; exact absurd (he ▸ h3) (by decide)
          · intro he; exact absurd (he ▸ h3) (by decide)) []]
  simp only [List.reverse_nil, List.nil_append]
  rfl

theorem c6_strip_line (v : PyValue) :
    stripSet [' ', ';'] (strL "\"RTRV-OSNC:::100:::OELAID=" ++
      (renderValue v ++ strL ":;\"")) =
      strL "\"RTRV-OSNC:::100:::OELAID=" ++ (renderValue v ++ strL ":;\"") := by
  refine stripTwice_eq_self _ _ ?_ ?_
  · intro c hc
    have h0 : (strL "\"RTRV-OSNC:::100:::OELAID=" ++
        (renderValue v ++ strL ":;\"")).head? = some '"' := rfl
    rw [h0, Option.some_inj] at hc
    rw [← hc]
    rfl
  · intro c hc
    have h0 : (strL "\"RTRV-OSNC:::100:::OELAID=" ++
        (renderValue v ++ strL ":;\"")).getLast? = some '"' := by
      rw [getLast?_append_right _ _ (by
        intro hh
        rcases List.append_eq_nil.mp hh with ⟨h1, h2⟩
        exact absurd h2 (by decide))]
      rw [getLast?_append_right _ _ (by decide)]
      rfl
    rw [h0, Option.some_inj] at hc
    rw [← hc]
    rfl

theorem c6_strip_outer_quotes (v : PyValue) :
    stripSet ['"'] (strL "\"RTRV-OSNC:::100:::OELAID=" ++
      (renderValue v ++ strL ":;\"")) =
      strL "RTRV-OSNC:::100:::OELAID=" ++ (renderValue v ++ strL ":;") := by
  rw [show strL "\"RTRV-OSNC:::100:::OELAID=" ++ (renderValue v ++ strL ":;\"") =
    '"' :: ((strL "RTRV-OSNC:::100:::OELAID=" ++ (renderValue v ++ strL ":;")) ++ ['"'])
    from by simp only [List.append_assoc]; rfl]
  refine stripTwice_wrap _ '"' '"' _ (by decide) (by decide) ?_ ?_
  · intro c hc
    have h0 : (strL "RTRV-OSNC:::100:::OELAID=" ++
        (renderValue v ++ strL ":;")).head? = some 'R' := rfl
    rw [h0, Option.some_inj] at hc
    rw [← hc]
    rfl
  · intro c hc
    have h0 : (strL "RTRV-OSNC:::100:::OELAID=" ++
        (renderValue v ++ strL ":;")).getLast? = some ';' := by
      rw [getLast?_append_right _ _ (by
        intro hh
        rcases List.append_eq_nil.mp hh with ⟨h1, h2⟩
        exact absurd h2 (by decide))]
      rw [getLast?_append_right _ _ (by decide)]
      rfl
    rw [h0, Option.some_inj] at hc
    rw [← hc]
    rfl

theorem c6_split_sections (v : PyValue) (h : cleanValue v = true) :
    pySplitChar ':' (strL "RTRV-OSNC:::100:::OELAID=" ++ (renderValue v ++ strL ":;")) =
      [strL "RTRV-OSNC", [], [], strL "100", [], [],
       strL "OELAID=" ++ renderValue v, [';']] := by
  rw [show strL "RTRV-OSNC:::100:::OELAID=" ++ (renderValue v ++ strL ":;") =
    strL "RTRV-OSNC" ++ ':' :: (([] : List Char) ++ ':' :: (([] : List Char) ++ ':' ::
      (strL "100" ++ ':' :: (([] : List Char) ++ ':' :: (([] : List Char) ++ ':' ::
        ((strL "OELAID=" ++ renderValue v) ++ ':' :: [';'])))))) from by
    simp only [List.append_assoc]
    rfl]
  rw [pySplitChar_append_sep ':' (strL "RTRV-OSNC") _ (by decide)]
  rw [pySplitChar_append_sep ':' [] _ (by intro c hc; cases hc)]
  rw [pySplitChar_append_sep ':' [] _ (by intro c hc; cases hc)]
  rw [pySplitChar_append_sep ':' (strL "100") _ (by decide)]
  rw [pySplitChar_append_sep ':' [] _ (by intro c hc; cases hc)]
  rw [pySplitChar_append_sep ':' [] _ (by intro c hc; cases hc)]
  rw [pySplitChar_append_sep ':' (strL "OELAID=" ++ renderValue v) _ (by
    intro c hc
    rcases List.mem_append.mp hc with h1 | h1
    · intro he; exact absurd (he ▸ h1) (by decide)
    · intro he
      exact renderValue_not_mem v h ':' (by decide) (by decide) (by decide) (he ▸ h1))]
  rw [show pySplitChar ':' [';'] = [[';']] from rfl]

theorem c6_build_record (v : PyValue) (h : cleanValue v = true) :
    recordSections 0 []
      [strL "RTRV-OSNC", [], [], strL "100", [], [],
       strL "OELAID=" ++ renderValue v, [';']] = c6Record v := by
  have hstep : recordSections 0 []
      [strL "RTRV-OSNC", [], [], strL "100", [], [],
       strL "OELAID=" ++ renderValue v, [';']] =
      recordSections 6
        [(positionalName 0 0, .str (strL "RTRV-OSNC")),
         (positionalName 3 0, .str (strL "100"))]
        [strL "OELAID=" ++ renderValue v, [';']] := rfl
  rw [hstep]
  have hall : (strL "OELAID=" ++ renderValue v).all pyIsSpace = false := rfl
  rw [show recordSections 6
      [(positionalName 0 0, .str (strL "RTRV-OSNC")),
       (positionalName 3 0, .str (strL "100"))]
      [strL "OELAID=" ++ renderValue v, [';']] =
    recordSections 7
      (recordFields 6 0
        [(positionalName 0 0, .str (strL "RTRV-OSNC")),
         (positionalName 3 0, .str (strL "100"))]
        (splitPreservingQuotes (strL "OELAID=" ++ renderValue v) ','))
      [[';']] from by
    rw [recordSections]
    rw [hall]
    rfl]
  have hspq : splitPreservingQuotes (strL "OELAID=" ++ renderValue v) ',' =
      [strL "OELAID=" ++ renderValue v] := by
    rw [splitPreservingQuotes_clean _ (by
      intro hm
      rcases List.mem_append.mp hm with h1 | h1
      · exact absurd h1 (by decide)
      · exact renderValue_not_mem v h '\\' (by decide) (by decide) (by decide) h1)]
    refine pySplitChar_no_sep ',' _ ?_
    intro c hc
    rcases List.mem_append.mp hc with h1 | h1
    · intro he; exact absurd (he ▸ h1) (by decide)
    · intro he
      exact renderValue_not_mem v h ',' (by decide) (by decide) (by decide) (he ▸ h1)
  rw [hspq]
  have hcont : (strL "OELAID=" ++ renderValue v).contains '=' = true := rfl
  rw [show recordFields 6 0
      [(positionalName 0 0, .str (strL "RTRV-OSNC")),
       (positionalName 3 0, .str (strL "100"))]
      [strL "OELAID=" ++ renderValue v] =
    pyDictSet (strL "OELAID") (decodeFieldValue (renderValue v))
      [(positionalName 0 0, .str (strL "RTRV-OSNC")),
       (positionalName 3 0, .str (strL "100"))] from by
    rw [recordFields]
    rw [hcont]
    rfl]
  rw [decodeFieldValue_renderValue v h]
  rfl

theorem parseLine_quoted (line : List Char) (hstrip : stripSet [' ', ';'] line = line)
    (rest0 : List Char) (hline : line = '"' :: rest0) :
    parseLine line =
      some (recordSections 0 [] (splitPreservingQuotes (stripSet ['"'] line) ':')) := by
  rw [parseLine, hstrip, hline]
  simp

theorem c6_parseLine (v : PyValue) (h : cleanValue v = true) :
    parseLine (strL "\"RTRV-OSNC:::100:::OELAID=" ++ (renderValue v ++ strL ":;\"")) =
      some (c6Record v) := by
  rw [parseLine_quoted _ (c6_strip_line v) _ rfl]
  rw [c6_strip_outer_quotes v]
  rw [splitPreservingQuotes_clean _ (by
    intro hm
    rcases List.mem_append.mp hm with h1 | h1
    · exact absurd h1 (by decide)
    · rcases List.mem_append.mp h1 with h2 | h2
      · exact renderValue_not_mem v h '\\' (by decide) (by decide) (by decide) h2
      · exact absurd h2 (by decide))]
  rw [c6_split_sections v h, c6_build_record v h]

/-- Claim C6 (amended): for the representative registered template
`RetrieveOsnc`, serializing a command whose named field `oelaid` holds a
clean value `v` (nonempty alphanumeric scalar, flat list of at least two
alphanumeric elements, or list of at least two nonempty alphanumeric
rows), wrapping the serialization in a status envelope whose header tag
does not reoccur in the serialized text, and parsing with that header
tag recovers a single record whose named field `OELAID` equals `v`;
positional content (the verb-modifier head and the echoed correlation
tag) comes back under synthetic `positional_param` names, recoverable
only after the per-command rename hook. -/
theorem c6_roundtrip (v : PyValue) (h : cleanValue v = true) :
    fromRawText id
      (wrapStatusEnvelope (strL "@@") (toStringModel (retrieveOsncCommand v)))
      (strL "@@") =
    .ok { status := strL "COMPLD",
          rawData :=
            wrapStatusEnvelope (strL "@@") (toStringModel (retrieveOsncCommand v)),
          parsedData := [c6Record v], ctag := strL "@@" } := by
  rw [c6_message]
  have h1 := c6_rfind_tag v h
  have h3 : pyFind (strL "@@")
      (strL "@@ COMPLD\n\"RTRV-OSNC:::100:::OELAID=" ++
        (renderValue v ++ strL ":;\"")) = some 0 := rfl
  simp only [fromRawText, h1, h3]
  rw [c6_status_match v]
  simp only [Option.getD_some, List.drop_zero]
  rw [c6_strip_message v, c6_splitlines v h]
  simp only [List.tail_cons, List.filterMap_cons, c6_parseLine v h, List.filterMap_nil, id]

/-- Claim C6 (counterexample): wrapping the serialization in a status
envelope that carries the command's own correlation tag (`100`) — the
natural reading of "wrapped in a status envelope" — always crashes the
parser: the serialized text echoes the tag, so the last tag occurrence
sits inside the data line where no status word follows, and
`match.group(1)` raises `AttributeError` instead of recovering any
record. -/
theorem c6_roundtrip_counterexample :
    fromRawText id
      (wrapStatusEnvelope (strL "100")
        (toStringModel (retrieveOsncCommand (.str (strL "X")))))
      (strL "100") = .error .attributeError := by
  rfl

/-- Witness for C6 at one clean scalar, one flat list and one list of
lists. -/
theorem c6_roundtrip_witness :
    cleanValue (.str (strL "XA1")) = true ∧
    cleanValue (.list [strL "a", strL "b"]) = true ∧
    cleanValue (.lol [[strL "a", strL "b"], [strL "c"]]) = true ∧
    fromRawText id
        (wrapStatusEnvelope (strL "@@")
          (toStringModel (retrieveOsncCommand (.str (strL "XA1"))))) (strL "@@") =
      .ok { status := strL "COMPLD",
            rawData := wrapStatusEnvelope (strL "@@")
              (toStringModel (retrieveOsncCommand (.str (strL "XA1")))),
            parsedData := [c6Record (.str (strL "XA1"))], ctag := strL "@@" } ∧
    fromRawText id
        (wrapStatusEnvelope (strL "@@")
          (toStringModel (retrieveOsncCommand (.list [strL "a", strL "b"]))))
        (strL "@@") =
      .ok { status := strL "COMPLD",
            rawData := wrapStatusEnvelope (strL "@@")
              (toStringModel (retrieveOsncCommand (.list [strL "a", strL "b"]))),
            parsedData := [c6Record (.list [strL "a", strL "b"])], ctag := strL "@@" } ∧
    fromRawText id
        (wrapStatusEnvelope (strL "@@")
          (toStringModel (retrieveOsncCommand (.lol [[strL "a", strL "b"], [strL "c"]]))))
        (strL "@@") =
      .ok { status := strL "COMPLD",
            rawData := wrapStatusEnvelope (strL "@@")
              (toStringModel (retrieveOsncCommand (.lol [[strL "a", strL "b"], [strL "c"]]))),
            parsedData := [c6Record (.lol [[strL "a", strL "b"], [strL "c"]])],
            ctag := strL "@@" } :=
  ⟨by decide, by decide, by decide,
   c6_roundtrip (.str (strL "XA1")) (by decide),
   c6_roundtrip (.list [strL "a", strL "b"]) (by decide),
   c6_roundtrip (.lol [[strL "a", strL "b"], [strL "c"]]) (by decide)⟩
